import Mathlib

/-!
Verification development for the to-do list manager in `todo.py`.

The core is the class `TodoManager`: an in-memory list of `TodoItem` records
plus a `next_id` counter, persisted as a JSON document.  The embedding below
translates the core operations (`add_todo`, `remove_todo`, `complete_todo`,
`uncomplete_todo`, `update_todo`, `get_todos`) and the persistence round trip
(`save_todos` / `load_todos` / `TodoItem.to_dict` / `TodoItem.from_dict`)
into pure Lean functions.  Mutation of `self` becomes explicit state passing
on `TodoState`; calls to `datetime.now().strftime(...)` become an explicit
`now : String` argument; the file system becomes an explicit `FileContent`
value; Python exceptions become `Except PyErr`.
-/

namespace Todo

/-- Python `str.lower()`: per-character lowercasing.  (All strings the
program compares after lowercasing are ASCII, where `Char.toLower` agrees
with Python.)  Defined structurally on the character list so that concrete
instances evaluate. -/
def pyLower (s : String) : String := String.mk (s.data.map Char.toLower)

/-- JSON values as produced by `json.load` and consumed by `json.dump`.
The program only ever writes integers, so numbers are modelled as `Int`. -/
inductive Json where
  | null : Json
  | bool (b : Bool) : Json
  | int (n : Int) : Json
  | str (s : String) : Json
  | arr (elems : List Json) : Json
  | obj (fields : List (String × Json)) : Json
deriving Repr

/-- The Python exceptions that the translated code can raise.  `load_todos`
catches only `json.JSONDecodeError` and `FileNotFoundError`; the errors below
are the ones that would propagate out of it uncaught. -/
inductive PyErr where
  | keyError (k : String) : PyErr
  | attributeError : PyErr
  | typeError : PyErr
deriving DecidableEq, Repr

/-- A task record (`TodoItem`, todo.py lines 6-34).  In Python `self.id`
starts as `None` and is assigned by `add_todo` (or `from_dict`) before the
item ever enters the store, so the embedding gives every record its final
integer id.  Fields keep the source's names and in-memory types:
`due_date` and `completed_at` are a string or `None`. -/
structure TodoItem where
  id : Int
  task : String
  completed : Bool
  priority : String
  created_at : String
  due_date : Option String
  completed_at : Option String
deriving DecidableEq, Repr

/-- Serialization of an optional string field: Python `None` becomes JSON
`null`, a string stays a string. -/
def optStr : Option String → Json
  | none => Json.null
  | some s => Json.str s

/-- `TodoItem.to_dict` (todo.py lines 16-25): the dict written by
`save_todos`, with the source's key order. -/
def TodoItem.to_dict (t : TodoItem) : Json :=
  Json.obj
    [ ("id", Json.int t.id)
    , ("task", Json.str t.task)
    , ("completed", Json.bool t.completed)
    , ("priority", Json.str t.priority)
    , ("created_at", Json.str t.created_at)
    , ("due_date", optStr t.due_date)
    , ("completed_at", optStr t.completed_at) ]

/-- Python `d[k]` on a parsed JSON object: the value when the key is present,
`KeyError` otherwise.  (`json.load` collapses duplicate keys, so objects it
returns have at most one binding per key.) -/
def dictItem (d : List (String × Json)) (k : String) : Except PyErr Json :=
  match d.lookup k with
  | some v => Except.ok v
  | none => Except.error (PyErr.keyError k)

/-- Python `d.get(k, default)` on a parsed JSON object. -/
def dictGet (d : List (String × Json)) (k : String) (dflt : Json) : Json :=
  match d.lookup k with
  | some v => v
  | none => dflt

/-- `TodoItem.from_dict` (todo.py lines 27-34).  The accesses happen in the
source's order: the three lookups for the `cls(...)` call, then
`priority.lower()` inside `TodoItem.__init__` (an `AttributeError` when the
value is not a string), then the four remaining lookups.  A missing key is a
`KeyError`; a non-dict argument makes `data['task']` a `TypeError`.  Because
the Lean record is typed, a present field whose JSON value does not have the
shape `to_dict` writes is reported as `typeError`; Python would instead store
the value dynamically.  No theorem below depends on such inputs.
`__init__`'s transient defaults (`id = None`, `completed = False`,
`created_at = now`, `completed_at = None`) are all overwritten by the
subsequent assignments, so the record is built directly from the dict. -/
def TodoItem.from_dict (j : Json) : Except PyErr TodoItem := do
  match j with
  | Json.obj d =>
    let taskJ ← dictItem d "task"
    let prioJ ← dictItem d "priority"
    let dueJ ← dictItem d "due_date"
    let priority ←
      match prioJ with
      | Json.str s => Except.ok s
      | _ => Except.error PyErr.attributeError
    let idJ ← dictItem d "id"
    let completedJ ← dictItem d "completed"
    let createdJ ← dictItem d "created_at"
    let completedAtJ ← dictItem d "completed_at"
    let task ←
      match taskJ with
      | Json.str s => Except.ok s
      | _ => Except.error PyErr.typeError
    let due_date ←
      match dueJ with
      | Json.null => Except.ok none
      | Json.str s => Except.ok (some s)
      | _ => Except.error PyErr.typeError
    let id ←
      match idJ with
      | Json.int n => Except.ok n
      | _ => Except.error PyErr.typeError
    let completed ←
      match completedJ with
      | Json.bool b => Except.ok b
      | _ => Except.error PyErr.typeError
    let created_at ←
      match createdJ with
      | Json.str s => Except.ok s
      | _ => Except.error PyErr.typeError
    let completed_at ←
      match completedAtJ with
      | Json.null => Except.ok none
      | Json.str s => Except.ok (some s)
      | _ => Except.error PyErr.typeError
    Except.ok
      { id := id, task := task, completed := completed
      , priority := pyLower priority, created_at := created_at
      , due_date := due_date, completed_at := completed_at }
  | _ => Except.error PyErr.typeError

/-- The mutable state of a `TodoManager` (todo.py lines 37-40): the ordered
record collection and the id counter. -/
structure TodoState where
  todos : List TodoItem
  next_id : Int
deriving DecidableEq, Repr

/-- What `open(self.filename)` followed by `json.load` can yield: the file
does not exist (`os.path.exists` is false), it exists but is not valid JSON
(`json.JSONDecodeError`), or it parses to a JSON value. -/
inductive FileContent where
  | absent : FileContent
  | unreadable : FileContent
  | parsed (j : Json) : FileContent

/-- Python iteration over the value of `data.get('todos', [])`: a list yields
its elements, a string yields its one-character strings, a dict yields its
keys; null, booleans and numbers are not iterable (`TypeError`). -/
def pyIter : Json → Except PyErr (List Json)
  | Json.arr xs => Except.ok xs
  | Json.str s => Except.ok (s.data.map (fun c => Json.str (String.singleton c)))
  | Json.obj kvs => Except.ok (kvs.map (fun kv => Json.str kv.1))
  | _ => Except.error PyErr.typeError

/-- `TodoManager.load_todos` (todo.py lines 43-53).  On a missing file
nothing happens (the surrounding state is kept — in `__init__` that state is
the fresh empty store).  The `try` block catches only `JSONDecodeError` (and
`FileNotFoundError`, subsumed here by `absent`): an `unreadable` file resets
the store to empty with `next_id = 1`.  Any other error raised while
rebuilding the records — a `KeyError` from `from_dict`, an `AttributeError`
from calling `.get` or `.lower()` on the wrong type — propagates uncaught.
The embedding requires `next_id` to be an integer (`typeError` otherwise);
Python would store any value there. -/
def load_todos (st : TodoState) (file : FileContent) : Except PyErr TodoState :=
  match file with
  | FileContent.absent => Except.ok st
  | FileContent.unreadable => Except.ok { todos := [], next_id := 1 }
  | FileContent.parsed j =>
    match j with
    | Json.obj d => do
      let items ← pyIter (dictGet d "todos" (Json.arr []))
      let todos ← items.mapM TodoItem.from_dict
      let next_id ←
        match dictGet d "next_id" (Json.int 1) with
        | Json.int n => Except.ok n
        | _ => Except.error PyErr.typeError
      Except.ok { todos := todos, next_id := next_id }
    | _ => Except.error PyErr.attributeError

/-- The JSON document `TodoManager.save_todos` writes (todo.py lines 55-62). -/
def save_doc (st : TodoState) : Json :=
  Json.obj
    [ ("todos", Json.arr (st.todos.map TodoItem.to_dict))
    , ("next_id", Json.int st.next_id) ]

/-- `TodoManager.__init__` (todo.py lines 37-41): start from an empty store
with `next_id = 1`, then run `load_todos` against the given file content. -/
def TodoManager.mk_manager (file : FileContent) : Except PyErr TodoState :=
  load_todos { todos := [], next_id := 1 } file

/-- The fresh in-memory store: empty collection, `next_id = 1`. -/
def init_state : TodoState := { todos := [], next_id := 1 }

/-- What a mutating operation on a `TodoManager` produces: the boolean the
method returns, the state of the manager afterwards, and the JSON document
written by `save_todos` when the method reached its `self.save_todos()` call
(`none` when it returned without persisting). -/
structure OpResult where
  result : Bool
  state : TodoState
  persisted : Option Json
deriving Repr

/-- The list of recognized priorities (todo.py lines 66 and 123). -/
def priorities : List String := ["low", "medium", "high"]

/-- `TodoManager.add_todo` (todo.py lines 64-74): coerce an unrecognized
priority to `"medium"`, build the item (`TodoItem.__init__` lowercases the
priority and stamps `created_at` with the current time, passed here as
`now`), assign it `next_id`, append it, increment the counter, persist, and
return the new id. -/
def add_todo (st : TodoState) (task : String) (priority : String)
    (due_date : Option String) (now : String) : Int × TodoState × Json :=
  let priority := if priority ∈ priorities then priority else "medium"
  let todo : TodoItem :=
    { id := st.next_id, task := task, completed := false
    , priority := pyLower priority, created_at := now
    , due_date := due_date, completed_at := none }
  let st2 : TodoState := { todos := st.todos ++ [todo], next_id := st.next_id + 1 }
  (todo.id, st2, save_doc st2)

/-- The loop of `TodoManager.remove_todo` (todo.py lines 78-83): delete the
first item whose id matches, or report that none matched. -/
def remove_first (todo_id : Int) : List TodoItem → Option (List TodoItem)
  | [] => none
  | t :: ts =>
    if t.id = todo_id then some ts
    else (remove_first todo_id ts).map (fun ts2 => t :: ts2)

/-- `TodoManager.remove_todo` (todo.py lines 76-83). -/
def remove_todo (st : TodoState) (todo_id : Int) : OpResult :=
  match remove_first todo_id st.todos with
  | some ts2 =>
    let st2 : TodoState := { st with todos := ts2 }
    { result := true, state := st2, persisted := some (save_doc st2) }
  | none => { result := false, state := st, persisted := none }

/-- The loop of `TodoManager.complete_todo` (todo.py lines 87-93): on the
first item whose id matches, set `completed = True` and `completed_at` to
the current time. -/
def complete_first (todo_id : Int) (now : String) :
    List TodoItem → Option (List TodoItem)
  | [] => none
  | t :: ts =>
    if t.id = todo_id then
      some ({ t with completed := true, completed_at := some now } :: ts)
    else (complete_first todo_id now ts).map (fun ts2 => t :: ts2)

/-- `TodoManager.complete_todo` (todo.py lines 85-93). -/
def complete_todo (st : TodoState) (todo_id : Int) (now : String) : OpResult :=
  match complete_first todo_id now st.todos with
  | some ts2 =>
    let st2 : TodoState := { st with todos := ts2 }
    { result := true, state := st2, persisted := some (save_doc st2) }
  | none => { result := false, state := st, persisted := none }

/-- The loop of `TodoManager.uncomplete_todo` (todo.py lines 97-103): on the
first item whose id matches, set `completed = False` and clear
`completed_at`. -/
def uncomplete_first (todo_id : Int) : List TodoItem → Option (List TodoItem)
  | [] => none
  | t :: ts =>
    if t.id = todo_id then
      some ({ t with completed := false, completed_at := none } :: ts)
    else (uncomplete_first todo_id ts).map (fun ts2 => t :: ts2)

/-- `TodoManager.uncomplete_todo` (todo.py lines 95-103). -/
def uncomplete_todo (st : TodoState) (todo_id : Int) : OpResult :=
  match uncomplete_first todo_id st.todos with
  | some ts2 =>
    let st2 : TodoState := { st with todos := ts2 }
    { result := true, state := st2, persisted := some (save_doc st2) }
  | none => { result := false, state := st, persisted := none }

/-- The field assignments of `TodoManager.update_todo` (todo.py lines
121-126).  `if task:` is Python truthiness, so both `None` and the empty
string leave the description alone.  `if priority and priority.lower() in
[...]` likewise skips `None` and the empty string and otherwise applies the
lowercased value only when it is a recognized priority.  `if due_date is not
None:` stores any supplied string — including the empty string — and never
stores `None`. -/
def apply_update (t : TodoItem) (task : Option String) (priority : Option String)
    (due_date : Option String) : TodoItem :=
  let t1 :=
    match task with
    | some s => if s ≠ "" then { t with task := s } else t
    | none => t
  let t2 :=
    match priority with
    | some p =>
      if p ≠ "" ∧ pyLower p ∈ priorities then { t1 with priority := pyLower p }
      else t1
    | none => t1
  match due_date with
  | some d => { t2 with due_date := some d }
  | none => t2

/-- The loop of `TodoManager.update_todo` (todo.py lines 119-129): apply the
supplied fields to the first item whose id matches. -/
def update_first (todo_id : Int) (task priority due_date : Option String) :
    List TodoItem → Option (List TodoItem)
  | [] => none
  | t :: ts =>
    if t.id = todo_id then some (apply_update t task priority due_date :: ts)
    else (update_first todo_id task priority due_date ts).map (fun ts2 => t :: ts2)

/-- `TodoManager.update_todo` (todo.py lines 117-129). -/
def update_todo (st : TodoState) (todo_id : Int)
    (task priority due_date : Option String) : OpResult :=
  match update_first todo_id task priority due_date st.todos with
  | some ts2 =>
    let st2 : TodoState := { st with todos := ts2 }
    { result := true, state := st2, persisted := some (save_doc st2) }
  | none => { result := false, state := st, persisted := none }

/-- The sort key of `TodoManager.get_todos` (todo.py line 115): the tuple
`(x.completed, x.priority != "high", x.priority != "medium")`. -/
def sortKey (t : TodoItem) : Bool × Bool × Bool :=
  (t.completed, t.priority != "high", t.priority != "medium")

/-- Lexicographic order on the key tuples, with `False < True` as in
Python's ordering on booleans. -/
def tupleLe : Bool × Bool × Bool → Bool × Bool × Bool → Bool
  | (a1, b1, c1), (a2, b2, c2) =>
    (!a1 && a2) || (a1 == a2 && ((!b1 && b2) || (b1 == b2 && ((!c1 && c2) || c1 == c2))))

/-- The comparison realized by `sorted(..., key=lambda x: (x.completed,
x.priority != "high", x.priority != "medium"))`. -/
def keyLe (x y : TodoItem) : Bool := tupleLe (sortKey x) (sortKey y)

/-- The filtering steps of `TodoManager.get_todos` (todo.py lines 107-113):
drop completed items when `show_completed` is false, then — when
`priority_filter` is truthy, so `None` and the empty string filter nothing —
keep the items whose priority equals the lowercased filter. -/
def filtered_todos (st : TodoState) (show_completed : Bool)
    (priority_filter : Option String) : List TodoItem :=
  let f1 := if show_completed then st.todos
            else st.todos.filter (fun t => !t.completed)
  match priority_filter with
  | none => f1
  | some p => if p = "" then f1 else f1.filter (fun t => t.priority == pyLower p)

/-- `TodoManager.get_todos` (todo.py lines 105-115): filter, then stable-sort
by the three-way key.  Python's `sorted` is a stable merge sort; it is
embedded as `List.mergeSort` with the `≤`-style comparison on keys, which is
also a stable merge sort over the same total preorder. -/
def get_todos (st : TodoState) (show_completed : Bool)
    (priority_filter : Option String) : List TodoItem :=
  (filtered_todos st show_completed priority_filter).mergeSort keyLe

/-- One call into the command layer, with the nondeterministic timestamp the
call would observe carried as data. -/
inductive Op where
  | add (task priority : String) (due_date : Option String) (now : String) : Op
  | remove (todo_id : Int) : Op
  | complete (todo_id : Int) (now : String) : Op
  | uncomplete (todo_id : Int) : Op
  | update (todo_id : Int) (task priority due_date : Option String) : Op

/-- The state transition of one operation. -/
def step (st : TodoState) : Op → TodoState
  | Op.add task priority due_date now => (add_todo st task priority due_date now).2.1
  | Op.remove i => (remove_todo st i).state
  | Op.complete i now => (complete_todo st i now).state
  | Op.uncomplete i => (uncomplete_todo st i).state
  | Op.update i t p d => (update_todo st i t p d).state

/-- Run a sequence of operations from a state. -/
def run (st : TodoState) : List Op → TodoState
  | [] => st
  | op :: ops => run (step st op) ops

/-- The ids returned by the `add` calls of an operation sequence, in call
order. -/
def add_ids (st : TodoState) : List Op → List Int
  | [] => []
  | Op.add task priority due_date now :: ops =>
    (add_todo st task priority due_date now).1 ::
      add_ids (step st (Op.add task priority due_date now)) ops
  | op :: ops => add_ids (step st op) ops

/-- A store state the core operations can produce from a fresh manager. -/
def Reachable (st : TodoState) : Prop := ∃ ops : List Op, run init_state ops = st

/-- Concrete records for the C5 ordering example: an incomplete low, a
completed high, an incomplete medium and an incomplete high priority
record, stored in that order. -/
def exLowInc : TodoItem :=
  { id := 1, task := "t1", completed := false, priority := "low"
  , created_at := "c1", due_date := none, completed_at := none }

/-- Completed high-priority record of the ordering example. -/
def exHighComp : TodoItem :=
  { id := 2, task := "t2", completed := true, priority := "high"
  , created_at := "c2", due_date := none, completed_at := some "f2" }

/-- Incomplete medium-priority record of the ordering example. -/
def exMedInc : TodoItem :=
  { id := 3, task := "t3", completed := false, priority := "medium"
  , created_at := "c3", due_date := none, completed_at := none }

/-- Incomplete high-priority record of the ordering example. -/
def exHighInc : TodoItem :=
  { id := 4, task := "t4", completed := false, priority := "high"
  , created_at := "c4", due_date := none, completed_at := none }

/-- The four-record store of the ordering example. -/
def exState : TodoState :=
  { todos := [exLowInc, exHighComp, exMedInc, exHighInc], next_id := 5 }

/-- First record of a concrete sort-key tie. -/
def wTieA : TodoItem :=
  { id := 1, task := "first", completed := false, priority := "medium"
  , created_at := "c1", due_date := none, completed_at := none }

/-- Second record of a concrete sort-key tie. -/
def wTieB : TodoItem :=
  { id := 2, task := "second", completed := false, priority := "medium"
  , created_at := "c2", due_date := none, completed_at := none }

/-- Two-record store whose records tie on the sort key. -/
def wTieState : TodoState := { todos := [wTieA, wTieB], next_id := 3 }

/-- A record used by several concrete witnesses below. -/
def wItem : TodoItem :=
  { id := 1, task := "buy milk", completed := false, priority := "high"
  , created_at := "2024-01-01 09:00:00", due_date := some "2024-01-05"
  , completed_at := none }

/-- A one-record store used by several concrete witnesses below. -/
def wState : TodoState := { todos := [wItem], next_id := 2 }

/-- A record with no due date, in a one-record store, for the witness
below. -/
def wNoneItem : TodoItem :=
  { id := 3, task := "call mom", completed := false, priority := "low"
  , created_at := "2024-01-02 10:00:00", due_date := none, completed_at := none }

/-- One-record store around `wNoneItem`. -/
def wNoneState : TodoState := { todos := [wNoneItem], next_id := 4 }

/-- A concrete operation sequence exercising add, complete, a second add
with an unrecognized priority, and uncomplete. -/
def wOps : List Op :=
  [ Op.add "buy milk" "high" (some "2024-01-05") "2024-01-01 09:00:00"
  , Op.complete 1 "2024-01-01 10:00:00"
  , Op.add "call mom" "URGENT" none "2024-01-02 08:00:00"
  , Op.uncomplete 2 ]

/-- A syntactically valid JSON document whose single record lacks the
`task` field. -/
def missingTaskDoc : Json :=
  Json.obj [("todos", Json.arr [Json.obj []]), ("next_id", Json.int 1)]

/-- The rank the sort key gives a priority string: `"high"` before
`"medium"` before everything else (`"low"` and, for robustness, any other
stored string fall together, exactly as the source's pair of inequality
tests does). -/
def prioRank (p : String) : Nat :=
  if p = "high" then 0 else if p = "medium" then 1 else 2

/-- The ordering the specification describes: incomplete records before
completed ones, and `high` before `medium` before `low` within the same
completion status. -/
def specLe (a b : TodoItem) : Prop :=
  (a.completed = false ∧ b.completed = true)
  ∨ (a.completed = b.completed ∧ prioRank a.priority ≤ prioRank b.priority)

/-! ### Helper lemmas about the id counter -/

@[simp] lemma remove_todo_next_id (st : TodoState) (i : Int) :
    (remove_todo st i).state.next_id = st.next_id := by
  unfold remove_todo
  cases remove_first i st.todos <;> rfl

@[simp] lemma complete_todo_next_id (st : TodoState) (i : Int) (now : String) :
    (complete_todo st i now).state.next_id = st.next_id := by
  unfold complete_todo
  cases complete_first i now st.todos <;> rfl

@[simp] lemma uncomplete_todo_next_id (st : TodoState) (i : Int) :
    (uncomplete_todo st i).state.next_id = st.next_id := by
  unfold uncomplete_todo
  cases uncomplete_first i st.todos <;> rfl

@[simp] lemma update_todo_next_id (st : TodoState) (i : Int)
    (task prio dd : Option String) :
    (update_todo st i task prio dd).state.next_id = st.next_id := by
  unfold update_todo
  cases update_first i task prio dd st.todos <;> rfl

@[simp] lemma add_todo_next_id (st : TodoState) (task p : String)
    (dd : Option String) (now : String) :
    (add_todo st task p dd now).2.1.next_id = st.next_id + 1 := rfl

lemma step_next_id_mono (st : TodoState) (op : Op) :
    st.next_id ≤ (step st op).next_id := by
  cases op <;> simp [step]

lemma add_ids_pairwise_ge :
    ∀ (ops : List Op) (st : TodoState),
      List.Pairwise (· < ·) (add_ids st ops)
      ∧ ∀ i ∈ add_ids st ops, st.next_id ≤ i := by
  intro ops
  induction ops with
  | nil => intro st; simp [add_ids]
  | cons op ops ih =>
    intro st
    cases op with
    | add task p dd now =>
      have h := ih (step st (Op.add task p dd now))
      have hnext : (step st (Op.add task p dd now)).next_id = st.next_id + 1 := by
        simp [step]
      constructor
      · refine List.pairwise_cons.mpr ⟨?_, h.1⟩
        intro j hj
        have := h.2 j hj
        rw [hnext] at this
        show st.next_id < j
        omega
      · intro i hi
        rcases List.mem_cons.mp hi with h1 | h2
        · simp [add_todo] at h1
          omega
        · have := h.2 i h2
          rw [hnext] at this
          omega
    | remove i =>
      have h := ih (step st (Op.remove i))
      have hnext : (step st (Op.remove i)).next_id = st.next_id := by simp [step]
      exact ⟨h.1, fun j hj => hnext ▸ h.2 j hj⟩
    | complete i now =>
      have h := ih (step st (Op.complete i now))
      have hnext : (step st (Op.complete i now)).next_id = st.next_id := by simp [step]
      exact ⟨h.1, fun j hj => hnext ▸ h.2 j hj⟩
    | uncomplete i =>
      have h := ih (step st (Op.uncomplete i))
      have hnext : (step st (Op.uncomplete i)).next_id = st.next_id := by simp [step]
      exact ⟨h.1, fun j hj => hnext ▸ h.2 j hj⟩
    | update i t p d =>
      have h := ih (step st (Op.update i t p d))
      have hnext : (step st (Op.update i t p d)).next_id = st.next_id := by simp [step]
      exact ⟨h.1, fun j hj => hnext ▸ h.2 j hj⟩

/-- C1: for every sequence of add, remove, complete, uncomplete, and update
operations starting from the initial store, the ids returned by the
successive add calls are strictly increasing and never repeat — deletions in
between included, since removal is one of the operations quantified over —
and no single operation ever decreases the `next_id` counter. -/
theorem add_ids_strictly_increasing (ops : List Op) :
    List.Pairwise (· < ·) (add_ids init_state ops)
    ∧ (add_ids init_state ops).Nodup
    ∧ ∀ (st : TodoState) (op : Op), st.next_id ≤ (step st op).next_id := by
  have h := (add_ids_pairwise_ge ops init_state).1
  exact ⟨h, h.imp Int.ne_of_lt, fun st op => step_next_id_mono st op⟩

/-! ### Not-found behaviour of the four id-directed operations -/

lemma remove_first_eq_none {i : Int} :
    ∀ {ts : List TodoItem}, (∀ t ∈ ts, t.id ≠ i) → remove_first i ts = none := by
  intro ts
  induction ts with
  | nil => intro _; rfl
  | cons t ts ih =>
    intro h
    have ht := h t (List.mem_cons_self t ts)
    simp [remove_first, ht, ih (fun u hu => h u (List.mem_cons_of_mem t hu))]

lemma complete_first_eq_none {i : Int} {now : String} :
    ∀ {ts : List TodoItem}, (∀ t ∈ ts, t.id ≠ i) → complete_first i now ts = none := by
  intro ts
  induction ts with
  | nil => intro _; rfl
  | cons t ts ih =>
    intro h
    have ht := h t (List.mem_cons_self t ts)
    simp [complete_first, ht, ih (fun u hu => h u (List.mem_cons_of_mem t hu))]

lemma uncomplete_first_eq_none {i : Int} :
    ∀ {ts : List TodoItem}, (∀ t ∈ ts, t.id ≠ i) → uncomplete_first i ts = none := by
  intro ts
  induction ts with
  | nil => intro _; rfl
  | cons t ts ih =>
    intro h
    have ht := h t (List.mem_cons_self t ts)
    simp [uncomplete_first, ht, ih (fun u hu => h u (List.mem_cons_of_mem t hu))]

lemma update_first_eq_none {i : Int} {task prio dd : Option String} :
    ∀ {ts : List TodoItem}, (∀ t ∈ ts, t.id ≠ i) →
      update_first i task prio dd ts = none := by
  intro ts
  induction ts with
  | nil => intro _; rfl
  | cons t ts ih =>
    intro h
    have ht := h t (List.mem_cons_self t ts)
    simp [update_first, ht, ih (fun u hu => h u (List.mem_cons_of_mem t hu))]

/-- C6: an id with no matching record makes each of `remove_todo`,
`complete_todo`, `uncomplete_todo` and `update_todo` return `False`, leave
the collection and the `next_id` counter untouched, and skip the
`save_todos` persist (the functions are total, so no exception is raised). -/
theorem missing_id_is_noop (st : TodoState) (i : Int)
    (h : ∀ t ∈ st.todos, t.id ≠ i) :
    remove_todo st i = ⟨false, st, none⟩
    ∧ (∀ now, complete_todo st i now = ⟨false, st, none⟩)
    ∧ uncomplete_todo st i = ⟨false, st, none⟩
    ∧ ∀ task prio dd, update_todo st i task prio dd = ⟨false, st, none⟩ := by
  refine ⟨?_, fun now => ?_, ?_, fun task prio dd => ?_⟩
  · unfold remove_todo
    rw [remove_first_eq_none h]
  · unfold complete_todo
    rw [complete_first_eq_none h]
  · unfold uncomplete_todo
    rw [uncomplete_first_eq_none h]
  · unfold update_todo
    rw [update_first_eq_none h]

/-- Witness for `missing_id_is_noop`: in the concrete one-record store, id 7
matches nothing and all four operations report false without changing
anything or persisting. -/
theorem missing_id_is_noop_witness :
    (∀ t ∈ wState.todos, t.id ≠ 7)
    ∧ (remove_todo wState 7 = ⟨false, wState, none⟩
      ∧ (∀ now, complete_todo wState 7 now = ⟨false, wState, none⟩)
      ∧ uncomplete_todo wState 7 = ⟨false, wState, none⟩
      ∧ ∀ task prio dd, update_todo wState 7 task prio dd = ⟨false, wState, none⟩) :=
  ⟨by decide, missing_id_is_noop wState 7 (by decide)⟩

/-! ### Frame properties of update -/

lemma apply_update_no_fields (t : TodoItem) : apply_update t none none none = t := rfl

lemma update_first_no_fields {i : Int} :
    ∀ {ts : List TodoItem}, (∃ t ∈ ts, t.id = i) →
      update_first i none none none ts = some ts := by
  intro ts
  induction ts with
  | nil => rintro ⟨t, ht, _⟩; cases ht
  | cons t ts ih =>
    rintro ⟨u, hu, hid⟩
    rcases List.mem_cons.mp hu with rfl | hu2
    · simp [update_first, hid, apply_update_no_fields]
    · by_cases h : t.id = i
      · simp [update_first, h, apply_update_no_fields]
      · simp [update_first, h, ih ⟨u, hu2, hid⟩]

/-- C9: updating a present id with no fields supplied returns `True`, leaves
the store (every record, and `next_id`) unchanged, and still performs the
persist — `save_todos` runs and writes the document of the unchanged
store. -/
theorem update_no_fields_frame (st : TodoState) (i : Int)
    (h : ∃ t ∈ st.todos, t.id = i) :
    update_todo st i none none none = ⟨true, st, some (save_doc st)⟩ := by
  unfold update_todo
  rw [update_first_no_fields h]

/-- Witness for `update_no_fields_frame`: the concrete one-record store,
updated at its id 1 with no fields, is returned unchanged with result
`True` and a persist of the unchanged document. -/
theorem update_no_fields_frame_witness :
    (∃ t ∈ wState.todos, t.id = 1)
    ∧ update_todo wState 1 none none none = ⟨true, wState, some (save_doc wState)⟩ :=
  ⟨by decide, update_no_fields_frame wState 1 (by decide)⟩

lemma apply_update_empty_task (t : TodoItem) (prio dd : Option String) :
    apply_update t (some "") prio dd = apply_update t none prio dd := by
  unfold apply_update
  simp

lemma update_first_empty_task {i : Int} {prio dd : Option String} :
    ∀ ts : List TodoItem,
      update_first i (some "") prio dd ts = update_first i none prio dd ts := by
  intro ts
  induction ts with
  | nil => rfl
  | cons t ts ih =>
    by_cases h : t.id = i
    · simp [update_first, h, apply_update_empty_task]
    · simp [update_first, h, ih]

lemma apply_update_task_of_none {t : TodoItem} {prio dd : Option String} :
    (apply_update t none prio dd).task = t.task := by
  unfold apply_update
  cases prio with
  | none => cases dd <;> rfl
  | some p =>
    by_cases h : p ≠ "" ∧ pyLower p ∈ priorities <;> cases dd <;> simp [h]

lemma update_first_preserves_task {i : Int} {prio dd : Option String} :
    ∀ {ts ts2 : List TodoItem}, update_first i none prio dd ts = some ts2 →
      ts2.map TodoItem.task = ts.map TodoItem.task := by
  intro ts
  induction ts with
  | nil => intro ts2 h; cases h
  | cons t ts ih =>
    intro ts2 h
    by_cases hid : t.id = i
    · simp [update_first, hid] at h
      subst h
      simp [apply_update_task_of_none]
    · simp [update_first, hid] at h
      rcases h with ⟨ts3, h3, rfl⟩
      simp [ih h3]

lemma update_first_some {i : Int} {task prio dd : Option String} :
    ∀ {ts : List TodoItem}, (∃ t ∈ ts, t.id = i) →
      ∃ ts2, update_first i task prio dd ts = some ts2 := by
  intro ts
  induction ts with
  | nil => rintro ⟨t, ht, _⟩; cases ht
  | cons t ts ih =>
    rintro ⟨u, hu, hid⟩
    by_cases h : t.id = i
    · exact ⟨apply_update t task prio dd :: ts, by simp [update_first, h]⟩
    · rcases List.mem_cons.mp hu with rfl | hu2
      · exact absurd hid h
      · rcases ih ⟨u, hu2, hid⟩ with ⟨ts2, h2⟩
        exact ⟨t :: ts2, by simp [update_first, h, h2]⟩

/-- C10: supplying the description as the empty string is indistinguishable
from omitting it — `if task:` is Python truthiness — so the call equals the
omitted-field call, every record's description is unchanged, and a present
id still yields `True`. -/
theorem update_empty_task_noop (st : TodoState) (i : Int) (prio dd : Option String) :
    update_todo st i (some "") prio dd = update_todo st i none prio dd
    ∧ (update_todo st i (some "") prio dd).state.todos.map TodoItem.task
        = st.todos.map TodoItem.task
    ∧ ((∃ t ∈ st.todos, t.id = i) →
        (update_todo st i (some "") prio dd).result = true) := by
  have heq : update_todo st i (some "") prio dd = update_todo st i none prio dd := by
    unfold update_todo
    rw [update_first_empty_task]
  refine ⟨heq, ?_, ?_⟩
  · rw [heq]
    unfold update_todo
    cases h : update_first i none prio dd st.todos with
    | none => rfl
    | some ts2 => exact update_first_preserves_task h
  · intro hmem
    rw [heq]
    unfold update_todo
    rcases update_first_some hmem with ⟨ts2, h2⟩
    rw [h2]

/-- Witness for `update_empty_task_noop`: on the concrete one-record store,
an update of id 1 with the empty description equals the omitted-field
update and returns `True`. -/
theorem update_empty_task_noop_witness :
    (∃ t ∈ wState.todos, t.id = 1)
    ∧ update_todo wState 1 (some "") none none = update_todo wState 1 none none none
    ∧ (update_todo wState 1 (some "") none none).result = true :=
  ⟨by decide, (update_empty_task_noop wState 1 none none).1,
    (update_empty_task_noop wState 1 none none).2.2 (by decide)⟩

/-! ### Due-date semantics of update -/

lemma apply_update_due_date (t : TodoItem) (task prio dd : Option String) :
    (apply_update t task prio dd).due_date =
      match dd with
      | some d => some d
      | none => t.due_date := by
  unfold apply_update
  cases task with
  | none =>
    cases prio with
    | none => cases dd <;> rfl
    | some p =>
      by_cases h : p ≠ "" ∧ pyLower p ∈ priorities <;> cases dd <;> simp [h]
  | some s =>
    by_cases hs : s ≠ "" <;>
      cases prio with
      | none => cases dd <;> simp [hs]
      | some p =>
        by_cases h : p ≠ "" ∧ pyLower p ∈ priorities <;> cases dd <;> simp [hs, h]

lemma update_first_mem {i : Int} {task prio dd : Option String} :
    ∀ {ts ts2 : List TodoItem}, update_first i task prio dd ts = some ts2 →
      ∀ u ∈ ts2, u ∈ ts ∨ ∃ v ∈ ts, u = apply_update v task prio dd := by
  intro ts
  induction ts with
  | nil => intro ts2 h; cases h
  | cons t ts ih =>
    intro ts2 h u hu
    by_cases hid : t.id = i
    · simp [update_first, hid] at h
      subst h
      rcases List.mem_cons.mp hu with rfl | hu2
      · exact Or.inr ⟨t, List.mem_cons_self t ts, rfl⟩
      · exact Or.inl (List.mem_cons_of_mem t hu2)
    · simp [update_first, hid] at h
      rcases h with ⟨ts3, h3, rfl⟩
      rcases List.mem_cons.mp hu with rfl | hu2
      · exact Or.inl (List.mem_cons_self u ts)
      · rcases ih h3 u hu2 with h4 | ⟨v, hv, h5⟩
        · exact Or.inl (List.mem_cons_of_mem t h4)
        · exact Or.inr ⟨v, List.mem_cons_of_mem t hv, h5⟩

/-- Counterexample to C8: on the concrete one-record store whose record has
a non-null due date, no `update_todo` call at all — whatever description,
priority and due-date arguments are supplied — produces a record with a null
`due_date`.  The claimed "explicit clearing signal that sets due_date to
null" does not exist: `if due_date is not None:` stores the supplied string
itself, so even the empty string is stored as a (falsy) string, not as
`None`. -/
theorem update_cannot_null_due_date :
    ¬ ∃ (task prio dd : Option String) (u : TodoItem),
        u ∈ (update_todo wState 1 task prio dd).state.todos
        ∧ u.due_date = none := by
  rintro ⟨task, prio, dd, u, hu, hd⟩
  have h1 : update_first 1 task prio dd wState.todos
      = some [apply_update wItem task prio dd] := by
    simp [wState, wItem, update_first]
  unfold update_todo at hu
  simp only [h1] at hu
  simp at hu
  subst hu
  rw [apply_update_due_date] at hd
  cases dd with
  | none => exact absurd hd (by simp [wItem])
  | some d => exact Option.noConfusion hd

/-- C8 as amended: `update_todo` leaves `due_date` unchanged when the
argument is omitted (`None`) and stores the supplied string otherwise — the
empty string included — but never sets `due_date` back to null: a record
with a null due date after an update can only come from a record that
already had a null due date. -/
theorem update_due_date_tristate (t : TodoItem) (task prio : Option String)
    (d : String) :
    (apply_update t task prio none).due_date = t.due_date
    ∧ (apply_update t task prio (some d)).due_date = some d
    ∧ ∀ (st : TodoState) (i : Int) (dd : Option String) (u : TodoItem),
        u ∈ (update_todo st i task prio dd).state.todos → u.due_date = none →
          ∃ v ∈ st.todos, v.due_date = none := by
  refine ⟨by rw [apply_update_due_date], by rw [apply_update_due_date], ?_⟩
  intro st i dd u hu hd
  unfold update_todo at hu
  cases h : update_first i task prio dd st.todos with
  | none =>
    rw [h] at hu
    exact ⟨u, hu, hd⟩
  | some ts2 =>
    rw [h] at hu
    rcases update_first_mem h u hu with h2 | ⟨v, hv, rfl⟩
    · exact ⟨u, h2, hd⟩
    · rw [apply_update_due_date] at hd
      cases dd with
      | none => exact ⟨v, hv, hd⟩
      | some d2 => exact Option.noConfusion hd

/-- Witness for `update_due_date_tristate` at concrete inputs: omission
keeps the concrete record's due date, a supplied string replaces it, and the
only way to see a null due date after an update is that the store already
held one. -/
theorem update_due_date_tristate_witness :
    (apply_update wItem none none none).due_date = wItem.due_date
    ∧ (apply_update wItem none none (some "2025-01-01")).due_date = some "2025-01-01"
    ∧ wNoneItem ∈ (update_todo wNoneState 3 none none none).state.todos
    ∧ wNoneItem.due_date = none
    ∧ (∃ v ∈ wNoneState.todos, v.due_date = none) :=
  have h := update_due_date_tristate wItem none none "2025-01-01"
  ⟨h.1, h.2.1, by decide, rfl,
    h.2.2 wNoneState 3 none wNoneItem (by decide) rfl⟩

/-! ### Priority coercion on add -/

lemma pyLower_of_mem_priorities {p : String} (hp : p ∈ priorities) :
    pyLower p = p := by
  simp [priorities] at hp
  rcases hp with rfl | rfl | rfl <;> decide

/-- C7: `add_todo` appends exactly one record; its stored priority is the
argument when that is one of `"low"`, `"medium"`, `"high"` and is silently
coerced to `"medium"` otherwise, so the stored priority of a record created
by add is always one of the three recognized values. -/
theorem add_priority_coerced (st : TodoState) (task p : String)
    (dd : Option String) (now : String) :
    ∃ t : TodoItem,
      (add_todo st task p dd now).2.1.todos = st.todos ++ [t]
      ∧ t.priority = (if p ∈ priorities then p else "medium")
      ∧ t.priority ∈ priorities := by
  refine ⟨_, rfl, ?_, ?_⟩
  · show pyLower (if p ∈ priorities then p else "medium")
        = (if p ∈ priorities then p else "medium")
    by_cases hp : p ∈ priorities
    · simp only [hp, if_pos]
      exact pyLower_of_mem_priorities hp
    · simp only [hp, if_neg, not_false_iff]
      decide
  · show pyLower (if p ∈ priorities then p else "medium") ∈ priorities
    by_cases hp : p ∈ priorities
    · simp [hp, pyLower_of_mem_priorities hp]
    · simp only [hp, if_neg, not_false_iff]
      decide

/-! ### The completed / completed_at invariant -/

lemma remove_first_subset {i : Int} :
    ∀ {ts ts2 : List TodoItem}, remove_first i ts = some ts2 →
      ∀ u ∈ ts2, u ∈ ts := by
  intro ts
  induction ts with
  | nil => intro ts2 h; cases h
  | cons t ts ih =>
    intro ts2 h u hu
    by_cases hid : t.id = i
    · simp [remove_first, hid] at h
      subst h
      exact List.mem_cons_of_mem t hu
    · simp [remove_first, hid] at h
      rcases h with ⟨ts3, h3, rfl⟩
      rcases List.mem_cons.mp hu with rfl | hu2
      · exact List.mem_cons_self u ts
      · exact List.mem_cons_of_mem t (ih h3 u hu2)

lemma complete_first_mem {i : Int} {now : String} :
    ∀ {ts ts2 : List TodoItem}, complete_first i now ts = some ts2 →
      ∀ u ∈ ts2, u ∈ ts
        ∨ ∃ v ∈ ts, u = { v with completed := true, completed_at := some now } := by
  intro ts
  induction ts with
  | nil => intro ts2 h; cases h
  | cons t ts ih =>
    intro ts2 h u hu
    by_cases hid : t.id = i
    · simp [complete_first, hid] at h
      subst h
      rcases List.mem_cons.mp hu with rfl | hu2
      · exact Or.inr ⟨t, List.mem_cons_self t ts, by rw [hid]⟩
      · exact Or.inl (List.mem_cons_of_mem t hu2)
    · simp [complete_first, hid] at h
      rcases h with ⟨ts3, h3, rfl⟩
      rcases List.mem_cons.mp hu with rfl | hu2
      · exact Or.inl (List.mem_cons_self u ts)
      · rcases ih h3 u hu2 with h4 | ⟨v, hv, h5⟩
        · exact Or.inl (List.mem_cons_of_mem t h4)
        · exact Or.inr ⟨v, List.mem_cons_of_mem t hv, h5⟩

lemma uncomplete_first_mem {i : Int} :
    ∀ {ts ts2 : List TodoItem}, uncomplete_first i ts = some ts2 →
      ∀ u ∈ ts2, u ∈ ts
        ∨ ∃ v ∈ ts, u = { v with completed := false, completed_at := none } := by
  intro ts
  induction ts with
  | nil => intro ts2 h; cases h
  | cons t ts ih =>
    intro ts2 h u hu
    by_cases hid : t.id = i
    · simp [uncomplete_first, hid] at h
      subst h
      rcases List.mem_cons.mp hu with rfl | hu2
      · exact Or.inr ⟨t, List.mem_cons_self t ts, by rw [hid]⟩
      · exact Or.inl (List.mem_cons_of_mem t hu2)
    · simp [uncomplete_first, hid] at h
      rcases h with ⟨ts3, h3, rfl⟩
      rcases List.mem_cons.mp hu with rfl | hu2
      · exact Or.inl (List.mem_cons_self u ts)
      · rcases ih h3 u hu2 with h4 | ⟨v, hv, h5⟩
        · exact Or.inl (List.mem_cons_of_mem t h4)
        · exact Or.inr ⟨v, List.mem_cons_of_mem t hv, h5⟩

lemma apply_update_completed {t : TodoItem} {task prio dd : Option String} :
    (apply_update t task prio dd).completed = t.completed := by
  unfold apply_update
  cases task with
  | none =>
    cases prio with
    | none => cases dd <;> rfl
    | some p =>
      by_cases h : p ≠ "" ∧ pyLower p ∈ priorities <;> cases dd <;> simp [h]
  | some s =>
    by_cases hs : s ≠ "" <;>
      cases prio with
      | none => cases dd <;> simp [hs]
      | some p =>
        by_cases h : p ≠ "" ∧ pyLower p ∈ priorities <;> cases dd <;> simp [hs, h]

lemma apply_update_completed_at {t : TodoItem} {task prio dd : Option String} :
    (apply_update t task prio dd).completed_at = t.completed_at := by
  unfold apply_update
  cases task with
  | none =>
    cases prio with
    | none => cases dd <;> rfl
    | some p =>
      by_cases h : p ≠ "" ∧ pyLower p ∈ priorities <;> cases dd <;> simp [h]
  | some s =>
    by_cases hs : s ≠ "" <;>
      cases prio with
      | none => cases dd <;> simp [hs]
      | some p =>
        by_cases h : p ≠ "" ∧ pyLower p ∈ priorities <;> cases dd <;> simp [hs, h]

lemma run_preserves (P : TodoState → Prop)
    (hP : ∀ (st : TodoState) (op : Op), P st → P (step st op)) :
    ∀ (ops : List Op) (st : TodoState), P st → P (run st ops) := by
  intro ops
  induction ops with
  | nil => intro st h; exact h
  | cons op ops ih => intro st h; exact ih (step st op) (hP st op h)

lemma step_preserves_completed_iff (st : TodoState) (op : Op)
    (h : ∀ t ∈ st.todos, (t.completed_at ≠ none ↔ t.completed = true)) :
    ∀ t ∈ (step st op).todos, (t.completed_at ≠ none ↔ t.completed = true) := by
  cases op with
  | add task p dd now =>
    intro t ht
    simp only [step, add_todo] at ht
    rcases List.mem_append.mp ht with h1 | h2
    · exact h t h1
    · simp at h2
      subst h2
      simp
  | remove i =>
    intro t ht
    simp only [step, remove_todo] at ht
    cases hr : remove_first i st.todos with
    | none => rw [hr] at ht; exact h t ht
    | some ts2 =>
      rw [hr] at ht
      exact h t (remove_first_subset hr t ht)
  | complete i now =>
    intro t ht
    simp only [step, complete_todo] at ht
    cases hr : complete_first i now st.todos with
    | none => rw [hr] at ht; exact h t ht
    | some ts2 =>
      rw [hr] at ht
      rcases complete_first_mem hr t ht with h1 | ⟨v, _, rfl⟩
      · exact h t h1
      · simp
  | uncomplete i =>
    intro t ht
    simp only [step, uncomplete_todo] at ht
    cases hr : uncomplete_first i st.todos with
    | none => rw [hr] at ht; exact h t ht
    | some ts2 =>
      rw [hr] at ht
      rcases uncomplete_first_mem hr t ht with h1 | ⟨v, _, rfl⟩
      · exact h t h1
      · simp
  | update i task p dd =>
    intro t ht
    simp only [step, update_todo] at ht
    cases hr : update_first i task p dd st.todos with
    | none => rw [hr] at ht; exact h t ht
    | some ts2 =>
      rw [hr] at ht
      rcases update_first_mem hr t ht with h1 | ⟨v, hv, rfl⟩
      · exact h t h1
      · rw [apply_update_completed, apply_update_completed_at]
        exact h v hv

/-- C3: in every store state reachable through the core operations,
`completed_at` is non-null exactly when `completed` is true: `add` creates
records with both cleared, `complete_todo` sets both, `uncomplete_todo`
clears both, and `remove_todo` / `update_todo` touch neither flag. -/
theorem completed_at_iff_completed (st : TodoState) (h : Reachable st) :
    ∀ t ∈ st.todos, (t.completed_at ≠ none ↔ t.completed = true) := by
  rcases h with ⟨ops, rfl⟩
  exact run_preserves _ step_preserves_completed_iff ops init_state (by simp [init_state])

/-- Witness for `completed_at_iff_completed`: the state after the concrete
operation sequence `wOps` is reachable and satisfies the equivalence. -/
theorem completed_at_iff_completed_witness :
    Reachable (run init_state wOps)
    ∧ ∀ t ∈ (run init_state wOps).todos,
        (t.completed_at ≠ none ↔ t.completed = true) :=
  ⟨⟨wOps, rfl⟩, completed_at_iff_completed (run init_state wOps) ⟨wOps, rfl⟩⟩

/-! ### The persistence round trip -/

lemma coerced_priority_mem (p : String) :
    pyLower (if p ∈ priorities then p else "medium") ∈ priorities := by
  by_cases hp : p ∈ priorities
  · simp [hp, pyLower_of_mem_priorities hp]
  · simp only [hp, if_neg, not_false_iff]
    decide

lemma apply_update_priority_eq (t : TodoItem) (task prio dd : Option String) :
    (apply_update t task prio dd).priority =
      match prio with
      | some p => if p ≠ "" ∧ pyLower p ∈ priorities then pyLower p else t.priority
      | none => t.priority := by
  unfold apply_update
  cases task with
  | none =>
    cases prio with
    | none => cases dd <;> rfl
    | some p =>
      by_cases h : p ≠ "" ∧ pyLower p ∈ priorities <;> cases dd <;> simp [h]
  | some s =>
    by_cases hs : s ≠ "" <;>
      cases prio with
      | none => cases dd <;> simp [hs]
      | some p =>
        by_cases h : p ≠ "" ∧ pyLower p ∈ priorities <;> cases dd <;> simp [hs, h]

lemma apply_update_priority {t : TodoItem} {task prio dd : Option String} :
    (apply_update t task prio dd).priority = t.priority
    ∨ (apply_update t task prio dd).priority ∈ priorities := by
  rw [apply_update_priority_eq]
  cases prio with
  | none => exact Or.inl rfl
  | some p =>
    by_cases h : p ≠ "" ∧ pyLower p ∈ priorities
    · show (if p ≠ "" ∧ pyLower p ∈ priorities then pyLower p else t.priority) = t.priority ∨
        (if p ≠ "" ∧ pyLower p ∈ priorities then pyLower p else t.priority) ∈ priorities
      rw [if_pos h]
      exact Or.inr h.2
    · show (if p ≠ "" ∧ pyLower p ∈ priorities then pyLower p else t.priority) = t.priority ∨
        (if p ≠ "" ∧ pyLower p ∈ priorities then pyLower p else t.priority) ∈ priorities
      rw [if_neg h]
      exact Or.inl rfl

lemma step_preserves_priority_mem (st : TodoState) (op : Op)
    (h : ∀ t ∈ st.todos, t.priority ∈ priorities) :
    ∀ t ∈ (step st op).todos, t.priority ∈ priorities := by
  cases op with
  | add task p dd now =>
    intro t ht
    simp only [step, add_todo] at ht
    rcases List.mem_append.mp ht with h1 | h2
    · exact h t h1
    · simp at h2
      subst h2
      exact coerced_priority_mem p
  | remove i =>
    intro t ht
    simp only [step, remove_todo] at ht
    cases hr : remove_first i st.todos with
    | none => rw [hr] at ht; exact h t ht
    | some ts2 =>
      rw [hr] at ht
      exact h t (remove_first_subset hr t ht)
  | complete i now =>
    intro t ht
    simp only [step, complete_todo] at ht
    cases hr : complete_first i now st.todos with
    | none => rw [hr] at ht; exact h t ht
    | some ts2 =>
      rw [hr] at ht
      rcases complete_first_mem hr t ht with h1 | ⟨v, hv, rfl⟩
      · exact h t h1
      · exact h v hv
  | uncomplete i =>
    intro t ht
    simp only [step, uncomplete_todo] at ht
    cases hr : uncomplete_first i st.todos with
    | none => rw [hr] at ht; exact h t ht
    | some ts2 =>
      rw [hr] at ht
      rcases uncomplete_first_mem hr t ht with h1 | ⟨v, hv, rfl⟩
      · exact h t h1
      · exact h v hv
  | update i task p dd =>
    intro t ht
    simp only [step, update_todo] at ht
    cases hr : update_first i task p dd st.todos with
    | none => rw [hr] at ht; exact h t ht
    | some ts2 =>
      rw [hr] at ht
      rcases update_first_mem hr t ht with h1 | ⟨v, hv, rfl⟩
      · exact h t h1
      · rcases apply_update_priority with h2 | h2
        · rw [h2]; exact h v hv
        · exact h2

lemma reachable_priority_mem (st : TodoState) (h : Reachable st) :
    ∀ t ∈ st.todos, t.priority ∈ priorities := by
  rcases h with ⟨ops, rfl⟩
  exact run_preserves _ step_preserves_priority_mem ops init_state (by simp [init_state])

lemma from_dict_to_dict (t : TodoItem) (h : pyLower t.priority = t.priority) :
    TodoItem.from_dict t.to_dict = Except.ok t := by
  obtain ⟨id, task, completed, priority, created_at, due_date, completed_at⟩ := t
  have h2 : TodoItem.from_dict
      (TodoItem.to_dict ⟨id, task, completed, priority, created_at, due_date, completed_at⟩)
      = Except.ok ⟨id, task, completed, pyLower priority, created_at, due_date, completed_at⟩ := by
    cases due_date <;> cases completed_at <;> rfl
  rw [h2]
  simp only at h
  rw [h]

lemma mapM_from_dict :
    ∀ ts : List TodoItem, (∀ t ∈ ts, pyLower t.priority = t.priority) →
      (ts.map TodoItem.to_dict).mapM TodoItem.from_dict = Except.ok ts := by
  intro ts
  induction ts with
  | nil => intro _; rfl
  | cons t ts ih =>
    intro h
    have ht := from_dict_to_dict t (h t (List.mem_cons_self t ts))
    have hts := ih (fun u hu => h u (List.mem_cons_of_mem t hu))
    rw [List.map_cons, List.mapM_cons, ht, hts]
    rfl

lemma load_parsed_save (st : TodoState)
    (h : ∀ t ∈ st.todos, pyLower t.priority = t.priority) :
    load_todos init_state (FileContent.parsed (save_doc st)) = Except.ok st := by
  have hb : load_todos init_state (FileContent.parsed (save_doc st))
      = ((st.todos.map TodoItem.to_dict).mapM TodoItem.from_dict).bind
          (fun todos => Except.ok { todos := todos, next_id := st.next_id }) := rfl
  rw [hb, mapM_from_dict st.todos h]
  rfl

/-- C4: for every store state reachable through the core operations, the
document `save_todos` writes, read back by `load_todos` in a fresh manager,
reproduces the records — same fields, same order — and the same `next_id`.
(The reachability hypothesis supplies the invariant that stored priorities
are already lowercase, so the `priority.lower()` in `TodoItem.__init__` is
the identity on them.) -/
theorem save_load_roundtrip (st : TodoState) (h : Reachable st) :
    load_todos init_state (FileContent.parsed (save_doc st)) = Except.ok st := by
  apply load_parsed_save
  intro t ht
  exact pyLower_of_mem_priorities (reachable_priority_mem st h t ht)

/-- Witness for `save_load_roundtrip`: the concrete state after `wOps` is
reachable, and saving then loading it reproduces it exactly. -/
theorem save_load_roundtrip_witness :
    Reachable (run init_state wOps)
    ∧ load_todos init_state (FileContent.parsed (save_doc (run init_state wOps)))
        = Except.ok (run init_state wOps) :=
  ⟨⟨wOps, rfl⟩, save_load_roundtrip (run init_state wOps) ⟨wOps, rfl⟩⟩

/-! ### Load error handling -/

/-- Counterexample to C2: loading a file whose content is valid JSON but
whose record is missing the `task` key does not initialize an empty store —
it raises an uncaught `KeyError`, because the `except` clause of
`load_todos` catches only `json.JSONDecodeError` and `FileNotFoundError`. -/
theorem load_missing_task_raises :
    load_todos init_state (FileContent.parsed missingTaskDoc)
      = Except.error (PyErr.keyError "task") := rfl

/-- C2 as amended: on a missing file `load_todos` leaves the fresh store —
empty collection, `next_id = 1` — in place, and on an existing file that is
not valid JSON it resets any store to the empty collection with
`next_id = 1`, raising nothing in either case; but parsed content that does
not have the expected structure can raise an uncaught error instead of
being discarded. -/
theorem load_recovers_empty :
    (∀ st : TodoState, load_todos st FileContent.unreadable = Except.ok init_state)
    ∧ load_todos init_state FileContent.absent = Except.ok init_state
    ∧ ∃ (j : Json) (e : PyErr),
        load_todos init_state (FileContent.parsed j) = Except.error e :=
  ⟨fun _ => rfl, rfl, missingTaskDoc, PyErr.keyError "task", rfl⟩

/-! ### The ordering produced by get_todos -/

lemma tupleLe_refl : ∀ x : Bool × Bool × Bool, tupleLe x x = true := by decide

lemma tupleLe_trans : ∀ x y z : Bool × Bool × Bool,
    tupleLe x y = true → tupleLe y z = true → tupleLe x z = true := by decide

lemma tupleLe_total : ∀ x y : Bool × Bool × Bool,
    (tupleLe x y || tupleLe y x) = true := by decide

lemma keyLe_trans : ∀ a b c : TodoItem,
    keyLe a b → keyLe b c → keyLe a c :=
  fun a b c hab hbc => tupleLe_trans (sortKey a) (sortKey b) (sortKey c) hab hbc

lemma keyLe_total : ∀ a b : TodoItem, keyLe a b || keyLe b a :=
  fun a b => tupleLe_total (sortKey a) (sortKey b)

lemma keyLe_of_sortKey_eq {a b : TodoItem} (h : sortKey a = sortKey b) :
    keyLe a b = true := by
  unfold keyLe
  rw [h]
  exact tupleLe_refl (sortKey b)

/-- The source's boolean sort key realizes exactly the specification's
order. -/
lemma keyLe_iff_specLe {a b : TodoItem} : keyLe a b = true ↔ specLe a b := by
  by_cases ha : a.completed <;> by_cases hb : b.completed <;>
    by_cases h1 : a.priority = "high" <;> by_cases h2 : a.priority = "medium" <;>
    by_cases h3 : b.priority = "high" <;> by_cases h4 : b.priority = "medium" <;>
    simp_all [keyLe, tupleLe, sortKey, specLe, prioRank] <;>
    exact ⟨by rw [bne_iff_ne.mpr h1, bne_iff_ne.mpr h3],
      by rw [bne_iff_ne.mpr h2, bne_iff_ne.mpr h4]⟩

lemma get_todos_example :
    get_todos exState true none = [exHighInc, exMedInc, exLowInc, exHighComp] := by
  have hmem : ∀ a b : TodoItem, a ∈ get_todos exState true none →
      b ∈ [exHighInc, exMedInc, exLowInc, exHighComp] →
      keyLe a b → keyLe b a → a = b := by
    intro a b ha hb
    rw [get_todos, List.mem_mergeSort] at ha
    have ha2 : a ∈ [exLowInc, exHighComp, exMedInc, exHighInc] := ha
    fin_cases ha2 <;> fin_cases hb <;> decide
  have hsorted : (get_todos exState true none).Pairwise (fun a b => keyLe a b) :=
    List.sorted_mergeSort keyLe_trans keyLe_total (filtered_todos exState true none)
  have hperm : (get_todos exState true none).Perm
      [exHighInc, exMedInc, exLowInc, exHighComp] :=
    (List.mergeSort_perm (filtered_todos exState true none) keyLe).trans (by decide)
  exact List.Perm.eq_of_sorted hmem hsorted (by decide) hperm

/-- C5: for every store state and filter arguments, `get_todos` returns a
permutation of the filtered records that is sorted with incomplete before
completed as the primary key and priority high before medium before low as
the secondary key, and the sort is stable — records with equal keys keep
their stored order; on the concrete records with priorities
[low(incomplete), high(complete), medium(incomplete), high(incomplete)] the
returned order is [high(incomplete), medium(incomplete), low(incomplete),
high(complete)]. -/
theorem get_todos_sorted (st : TodoState) (sc : Bool) (pf : Option String) :
    (get_todos st sc pf).Perm (filtered_todos st sc pf)
    ∧ (get_todos st sc pf).Pairwise specLe
    ∧ (∀ a b : TodoItem, [a, b].Sublist (filtered_todos st sc pf) →
        sortKey a = sortKey b → [a, b].Sublist (get_todos st sc pf))
    ∧ get_todos exState true none = [exHighInc, exMedInc, exLowInc, exHighComp] := by
  refine ⟨List.mergeSort_perm (filtered_todos st sc pf) keyLe, ?_, ?_, get_todos_example⟩
  · exact (List.sorted_mergeSort keyLe_trans keyLe_total
      (filtered_todos st sc pf)).imp (fun h => keyLe_iff_specLe.mp h)
  · intro a b hs hk
    exact List.pair_sublist_mergeSort keyLe_trans keyLe_total
      (keyLe_of_sortKey_eq hk) hs

/-- Witness for `get_todos_sorted`: in a concrete two-record store whose
records tie on the sort key, the pair is a sublist of the filtered records
and stays in stored order in the output. -/
theorem get_todos_sorted_witness :
    [wTieA, wTieB].Sublist (filtered_todos wTieState true none)
    ∧ sortKey wTieA = sortKey wTieB
    ∧ [wTieA, wTieB].Sublist (get_todos wTieState true none) :=
  ⟨by decide, rfl,
    (get_todos_sorted wTieState true none).2.2.1 wTieA wTieB (by decide) rfl⟩

end Todo
